import Mathlib

/-!
Verification of the VMAS velocity controller
(`vmas/simulator/velocity_controller.py`).

The controller is a PID velocity-tracking controller.  Python floats and
torch tensors are embedded as real numbers; a velocity/force tensor for one
agent is a function `Fin d → ℝ` over the spatial dimension, and a batched
tensor is a function `Fin b → Fin d → ℝ` whose leading index is the batch
slot.  The mutations of `accum_errs`, `prev_err` and `agent.action.u`
performed by the Python methods become explicit state passing: each method
returns the updated controller (paired with its return value where the
Python method returns one).  The constructor can raise, so it returns an
`Except`.
-/

noncomputable section

namespace VMAS

/-- `agent.action` container: `u` is the action/command tensor.  The
controller reads it as the desired velocity and overwrites it with the
computed force. -/
structure AgentAction (d : ℕ) where
  u : Fin d → ℝ

/-- `agent.state` container: `vel` is the agent's current velocity. -/
structure AgentState (d : ℕ) where
  vel : Fin d → ℝ

/-- The slice of `vmas.simulator.core.Agent` that the controller reads and
writes: `action.u`, `state.vel`, `mass`, and the optional limits `max_f`
(magnitude bound) and `f_range` (per-component bound). -/
structure Agent (d : ℕ) where
  action : AgentAction d
  state : AgentState d
  mass : ℝ
  max_f : Option ℝ
  f_range : Option ℝ

/-- Modelled from the spec: `vmas.simulator.utils.clamp_tensor` is not under
src/ (only its caller is).  The spec describes it as clamping the tensor
element-wise/by-magnitude to `[-limit, +limit]`. -/
def clamp_tensor {d : ℕ} (v : Fin d → ℝ) (limit : ℝ) : Fin d → ℝ :=
  fun i => min (max (v i) (-limit)) limit

/-- Modelled from the spec: `vmas.simulator.utils.clamp_with_norm` is not
under src/ (only its caller is).  The spec describes it as clamping the
vector by Euclidean norm to the given magnitude: direction preserved,
magnitude capped. -/
def clamp_with_norm {d : ℕ} (u : Fin d → ℝ) (maxNorm : ℝ) : Fin d → ℝ :=
  if Real.sqrt (∑ i, (u i) ^ 2) > maxNorm then
    fun i => u i * (maxNorm / Real.sqrt (∑ j, (u j) ^ 2))
  else
    u

/-- `torch.clamp(u, -r, r)`: element-wise clamp to `[-r, r]`. -/
def torch_clamp {d : ℕ} (u : Fin d → ℝ) (r : ℝ) : Fin d → ℝ :=
  fun i => min (max (u i) (-r)) r

/-- The error raised by `VelocityController.__init__` when `pid_form` is
neither standard nor parallel. -/
inductive CtrlError where
  | invalidConfiguration
  deriving DecidableEq

/-- State of a `VelocityController` instance.  `integrator_windup_cutoff`
is only assigned by `__init__` when the integrator is in use, hence the
`Option`. -/
structure VelocityController (d : ℕ) where
  agent : Agent d
  dt : ℝ
  ctrl_gain : ℝ
  integralTs : ℝ
  derivativeTs : ℝ
  use_integrator : Bool
  integrator_windup_cutoff : Option ℝ
  accum_errs : Fin d → ℝ
  prev_err : Fin d → ℝ

namespace VelocityController

/-- The tail of `__init__` after the gains have been resolved: sets
`use_integrator` and the windup cutoff (`0.5 * fmax * integralTs /
(dt * ctrl_gain)` with `fmax` the agent's `max_f`, defaulting to `2.0`),
and zero-initialises the error containers (which `reset()` then re-zeroes). -/
def mkWith {d : ℕ} (agent : Agent d) (dt kP iTs dTs : ℝ) :
    VelocityController d :=
  { agent := agent
    dt := dt
    ctrl_gain := kP
    integralTs := iTs
    derivativeTs := dTs
    use_integrator := if iTs = 0 then false else true
    integrator_windup_cutoff :=
      if iTs = 0 then none
      else some (0.5 * (agent.max_f.getD 2.0) * iTs / (dt * kP))
    accum_errs := fun _ => 0
    prev_err := fun _ => 0 }

/-- `VelocityController.__init__(agent, dt, ctrl_params, pid_form)`.
Standard form takes `ctrl_params = [kP, integralTs, derivativeTs]`;
parallel form takes `[kP, kI, kD]` and converts
`integralTs = (kI == 0) ? 0 : kP / kI`, `derivativeTs = kD / kP`
(no guard on `kP`); any other form raises. -/
def init {d : ℕ} (agent : Agent d) (dt : ℝ) (ctrl_params : ℝ × ℝ × ℝ)
    (pid_form : String) : Except CtrlError (VelocityController d) :=
  let kP := ctrl_params.1
  if pid_form = "standard" then
    .ok (mkWith agent dt kP ctrl_params.2.1 ctrl_params.2.2)
  else if pid_form = "parallel" then
    .ok (mkWith agent dt kP
      (if ctrl_params.2.1 = 0 then 0 else kP / ctrl_params.2.1)
      (ctrl_params.2.2 / kP))
  else
    .error .invalidConfiguration

/-- Whether `__init__` completed without raising (no partial controller
exists in the error case: the `Except` carries none). -/
def constructionOk {d : ℕ} :
    Except CtrlError (VelocityController d) → Bool
  | .ok _ => true
  | .error _ => false

/-- `reset()`: zeroes `accum_errs` and `prev_err`. -/
def reset {d : ℕ} (c : VelocityController d) : VelocityController d :=
  { c with accum_errs := fun _ => 0, prev_err := fun _ => 0 }

/-- `integralError(err)`: returns `0` untouched when the integrator is off;
otherwise accumulates `dt * err`, clamps the accumulated state by
`integrator_windup_cutoff`, and returns `(1/integralTs) * accum_errs`.
Returns the updated controller paired with the Python return value. -/
def integralError {d : ℕ} (c : VelocityController d) (err : Fin d → ℝ) :
    VelocityController d × (Fin d → ℝ) :=
  if c.use_integrator = false then
    (c, fun _ => 0)
  else
    let a := clamp_tensor (fun i => c.accum_errs i + c.dt * err i)
      (c.integrator_windup_cutoff.getD 0)
    ({ c with accum_errs := a }, fun i => (1.0 / c.integralTs) * a i)

/-- `rateError(err)`: returns `derivativeTs * (err - prev_err) / dt`
computed with the pre-call `prev_err`, and stores `err` into `prev_err`. -/
def rateError {d : ℕ} (c : VelocityController d) (err : Fin d → ℝ) :
    VelocityController d × (Fin d → ℝ) :=
  ({ c with prev_err := err },
   fun i => c.derivativeTs * (err i - c.prev_err i) / c.dt)

/-- `process_force()`: reads `agent.action.u` (desired velocity) and
`agent.state.vel`, applies the PID law, scales by mass, clamps by norm to
`max_f` then per-component to `f_range` (each only when present), and
writes the result back into `agent.action.u`. -/
def process_force {d : ℕ} (c : VelocityController d) : VelocityController d :=
  let des_vel := c.agent.action.u
  let cur_vel := c.agent.state.vel
  let err := fun i => des_vel i - cur_vel i
  let ci := integralError c err
  let cr := rateError ci.1 err
  let u := fun i => c.ctrl_gain * (err i + ci.2 i + cr.2 i)
  let u := fun i => u i * c.agent.mass
  let u := match c.agent.max_f with
    | some m => clamp_with_norm u m
    | none => u
  let u := match c.agent.f_range with
    | some r => torch_clamp u r
    | none => u
  { cr.1 with agent := { cr.1.agent with action := { u := u } } }

/-- Host-side harness: write a fresh desired velocity and current velocity
into the agent before a tick (the scenario/physics step does this between
controller calls). -/
def setInputs {d : ℕ} (c : VelocityController d) (des cur : Fin d → ℝ) :
    VelocityController d :=
  { c with agent :=
    { c.agent with action := { u := des }, state := { vel := cur } } }

/-- Run a sequence of ticks: each list element is a pair (desired velocity,
current velocity) written to the agent before that tick's `process_force`. -/
def run {d : ℕ} (c : VelocityController d)
    (inputs : List ((Fin d → ℝ) × (Fin d → ℝ))) : VelocityController d :=
  inputs.foldl (fun s p => process_force (setInputs s p.1 p.2)) c

/-- The sequence of forces written to `agent.action.u`, one per tick. -/
def outputSeq {d : ℕ} : VelocityController d →
    List ((Fin d → ℝ) × (Fin d → ℝ)) → List (Fin d → ℝ)
  | _, [] => []
  | c, p :: ps =>
    let c' := process_force (setInputs c p.1 p.2)
    c'.agent.action.u :: outputSeq c' ps

end VelocityController

/-! ### Batched embedding

The same code run on batched tensors: every state tensor carries a leading
batch dimension `Fin b`, every torch operation acts elementwise over it,
and `clamp_with_norm` takes the norm over the last (spatial) dimension,
replacing exactly the rows whose norm exceeds the bound. -/

/-- Batched `agent.action`: one action row per batch slot. -/
structure BAgentAction (b d : ℕ) where
  u : Fin b → Fin d → ℝ

/-- Batched `agent.state`: one velocity row per batch slot. -/
structure BAgentState (b d : ℕ) where
  vel : Fin b → Fin d → ℝ

/-- Batched agent: tensors are batched, the scalar parameters are shared
across the batch. -/
structure BAgent (b d : ℕ) where
  action : BAgentAction b d
  state : BAgentState b d
  mass : ℝ
  max_f : Option ℝ
  f_range : Option ℝ

/-- Modelled from the spec, batched: `clamp_tensor` applied to a batched
tensor clamps every element by magnitude to `[-limit, +limit]`. -/
def bclamp_tensor {b d : ℕ} (v : Fin b → Fin d → ℝ) (limit : ℝ) :
    Fin b → Fin d → ℝ :=
  fun k i => min (max (v k i) (-limit)) limit

/-- Modelled from the spec, batched: `clamp_with_norm` takes the Euclidean
norm of each row (over the last dimension) and rescales exactly the rows
whose norm exceeds `maxNorm`, preserving their direction. -/
def bclamp_with_norm {b d : ℕ} (u : Fin b → Fin d → ℝ) (maxNorm : ℝ) :
    Fin b → Fin d → ℝ :=
  fun k =>
    if Real.sqrt (∑ i, (u k i) ^ 2) > maxNorm then
      fun i => u k i * (maxNorm / Real.sqrt (∑ j, (u k j) ^ 2))
    else
      u k

/-- `torch.clamp` on a batched tensor: elementwise clamp to `[-r, r]`. -/
def btorch_clamp {b d : ℕ} (u : Fin b → Fin d → ℝ) (r : ℝ) :
    Fin b → Fin d → ℝ :=
  fun k i => min (max (u k i) (-r)) r

/-- A `VelocityController` whose agent and error containers are batched:
one `accum_errs`/`prev_err` row per batch slot, shared scalar gains. -/
structure BVelocityController (b d : ℕ) where
  agent : BAgent b d
  dt : ℝ
  ctrl_gain : ℝ
  integralTs : ℝ
  derivativeTs : ℝ
  use_integrator : Bool
  integrator_windup_cutoff : Option ℝ
  accum_errs : Fin b → Fin d → ℝ
  prev_err : Fin b → Fin d → ℝ

namespace BVelocityController

/-- Batched `integralError`. -/
def integralError {b d : ℕ} (c : BVelocityController b d)
    (err : Fin b → Fin d → ℝ) :
    BVelocityController b d × (Fin b → Fin d → ℝ) :=
  if c.use_integrator = false then
    (c, fun _ _ => 0)
  else
    let a := bclamp_tensor (fun k i => c.accum_errs k i + c.dt * err k i)
      (c.integrator_windup_cutoff.getD 0)
    ({ c with accum_errs := a }, fun k i => (1.0 / c.integralTs) * a k i)

/-- Batched `rateError`. -/
def rateError {b d : ℕ} (c : BVelocityController b d)
    (err : Fin b → Fin d → ℝ) :
    BVelocityController b d × (Fin b → Fin d → ℝ) :=
  ({ c with prev_err := err },
   fun k i => c.derivativeTs * (err k i - c.prev_err k i) / c.dt)

/-- Batched `process_force`: identical statement sequence to the
single-entry version, with every tensor operation batched. -/
def process_force {b d : ℕ} (c : BVelocityController b d) :
    BVelocityController b d :=
  let des_vel := c.agent.action.u
  let cur_vel := c.agent.state.vel
  let err := fun k i => des_vel k i - cur_vel k i
  let ci := integralError c err
  let cr := rateError ci.1 err
  let u := fun k i => c.ctrl_gain * (err k i + ci.2 k i + cr.2 k i)
  let u := fun k i => u k i * c.agent.mass
  let u := match c.agent.max_f with
    | some m => bclamp_with_norm u m
    | none => u
  let u := match c.agent.f_range with
    | some r => btorch_clamp u r
    | none => u
  { cr.1 with agent := { cr.1.agent with action := { u := u } } }

/-- Host-side harness for the batched controller: write the next batched
desired and current velocities into the agent. -/
def setInputs {b d : ℕ} (c : BVelocityController b d)
    (des cur : Fin b → Fin d → ℝ) : BVelocityController b d :=
  { c with agent :=
    { c.agent with action := { u := des }, state := { vel := cur } } }

/-- Run the batched controller over a sequence of batched ticks. -/
def run {b d : ℕ} (c : BVelocityController b d)
    (inputs : List ((Fin b → Fin d → ℝ) × (Fin b → Fin d → ℝ))) :
    BVelocityController b d :=
  inputs.foldl (fun s p => process_force (setInputs s p.1 p.2)) c

/-- The batched force sequence written to `agent.action.u`, one per tick. -/
def outputSeq {b d : ℕ} : BVelocityController b d →
    List ((Fin b → Fin d → ℝ) × (Fin b → Fin d → ℝ)) →
    List (Fin b → Fin d → ℝ)
  | _, [] => []
  | c, p :: ps =>
    let c' := process_force (setInputs c p.1 p.2)
    c'.agent.action.u :: outputSeq c' ps

/-- Restrict a batched agent to the single batch slot `k`. -/
def slotAgent {b d : ℕ} (a : BAgent b d) (k : Fin b) : Agent d :=
  { action := { u := a.action.u k }
    state := { vel := a.state.vel k }
    mass := a.mass
    max_f := a.max_f
    f_range := a.f_range }

/-- Restrict a batched controller to the single-entry controller owning
batch slot `k`: same gains, the slot's agent row and error rows. -/
def slot {b d : ℕ} (c : BVelocityController b d) (k : Fin b) :
    VelocityController d :=
  { agent := slotAgent c.agent k
    dt := c.dt
    ctrl_gain := c.ctrl_gain
    integralTs := c.integralTs
    derivativeTs := c.derivativeTs
    use_integrator := c.use_integrator
    integrator_windup_cutoff := c.integrator_windup_cutoff
    accum_errs := c.accum_errs k
    prev_err := c.prev_err k }

end BVelocityController

/-! ### Concrete instances used to exhibit witnesses and counterexamples -/

/-- A concrete 1-dimensional agent: desired velocity 1, current velocity 0,
mass 2, no force limits. -/
def agentA : Agent 1 :=
  { action := { u := fun _ => 1 }
    state := { vel := fun _ => 0 }
    mass := 2
    max_f := none
    f_range := none }

/-- A concrete controller on `agentA` with the integrator disabled
(as `__init__` builds for `integralTs = 0`). -/
def ctrlA : VelocityController 1 :=
  { agent := agentA
    dt := 1
    ctrl_gain := 1
    integralTs := 0
    derivativeTs := 0
    use_integrator := false
    integrator_windup_cutoff := none
    accum_errs := fun _ => 0
    prev_err := fun _ => 0 }

/-- A concrete controller on `agentA` with the integrator enabled and
windup cutoff `1` (as `__init__` builds for `integralTs = 1`, `dt = 1`,
`kP = 1`, no `max_f`). -/
def ctrlB : VelocityController 1 :=
  { agent := agentA
    dt := 1
    ctrl_gain := 1
    integralTs := 1
    derivativeTs := 0
    use_integrator := true
    integrator_windup_cutoff := some 1
    accum_errs := fun _ => 0
    prev_err := fun _ => 0 }

/-! ### Basic structural lemmas -/

namespace VelocityController

/-- `integralError` only ever modifies `accum_errs`. -/
theorem integralError_fst {d : ℕ} (c : VelocityController d)
    (err : Fin d → ℝ) :
    (integralError c err).1 =
      { c with accum_errs := (integralError c err).1.accum_errs } := by
  unfold integralError
  split
  · rfl
  · rfl

/-- `rateError` only modifies `prev_err`, storing the argument there. -/
theorem rateError_fst {d : ℕ} (c : VelocityController d) (err : Fin d → ℝ) :
    (rateError c err).1 = { c with prev_err := err } := rfl

/-- The value returned by `rateError` does not depend on `accum_errs`,
so running it after `integralError` returns the same value as running it
on the pre-call state. -/
theorem rateError_snd_after_integral {d : ℕ} (c : VelocityController d)
    (err : Fin d → ℝ) :
    (rateError (integralError c err).1 err).2 = (rateError c err).2 := by
  unfold integralError
  split
  · rfl
  · rfl

end VelocityController

namespace VelocityController

/-- The element-wise magnitude clamp stays within `[-w, w]` when `0 ≤ w`. -/
theorem abs_clamp_le (x w : ℝ) (h0 : 0 ≤ w) : |min (max x (-w)) w| ≤ w := by
  rw [abs_le]
  refine ⟨le_min (le_max_right x (-w)) ?_, min_le_right _ _⟩
  linarith

/-- `process_force` leaves every controller field fixed at construction
unchanged: `dt`, the gains, `use_integrator` and the windup cutoff. -/
theorem process_force_immut {d : ℕ} (c : VelocityController d) :
    c.process_force.use_integrator = c.use_integrator
    ∧ c.process_force.integrator_windup_cutoff = c.integrator_windup_cutoff
    ∧ c.process_force.dt = c.dt
    ∧ c.process_force.ctrl_gain = c.ctrl_gain
    ∧ c.process_force.integralTs = c.integralTs
    ∧ c.process_force.derivativeTs = c.derivativeTs := by
  unfold process_force integralError
  split
  · exact ⟨rfl, rfl, rfl, rfl, rfl, rfl⟩
  · exact ⟨rfl, rfl, rfl, rfl, rfl, rfl⟩

/-- `run` leaves every construction-time controller field unchanged. -/
theorem run_immut {d : ℕ}
    (inputs : List ((Fin d → ℝ) × (Fin d → ℝ))) :
    ∀ c : VelocityController d,
    (c.run inputs).use_integrator = c.use_integrator
    ∧ (c.run inputs).integrator_windup_cutoff = c.integrator_windup_cutoff
    ∧ (c.run inputs).dt = c.dt
    ∧ (c.run inputs).ctrl_gain = c.ctrl_gain
    ∧ (c.run inputs).integralTs = c.integralTs
    ∧ (c.run inputs).derivativeTs = c.derivativeTs := by
  induction inputs with
  | nil => exact fun c => ⟨rfl, rfl, rfl, rfl, rfl, rfl⟩
  | cons p ps ih =>
    intro c
    have h := ih ((c.setInputs p.1 p.2).process_force)
    have hp := process_force_immut (c.setInputs p.1 p.2)
    exact ⟨h.1.trans hp.1, h.2.1.trans hp.2.1, h.2.2.1.trans hp.2.2.1,
      h.2.2.2.1.trans hp.2.2.2.1, h.2.2.2.2.1.trans hp.2.2.2.2.1,
      h.2.2.2.2.2.trans hp.2.2.2.2.2⟩

/-- The accumulated error coming out of `integralError` is bounded by the
windup cutoff whenever the integrator is in use. -/
theorem integralError_accum_bound {d : ℕ} (c : VelocityController d)
    (err : Fin d → ℝ) (w : ℝ) (hu : c.use_integrator = true)
    (hw : c.integrator_windup_cutoff = some w) (h0 : 0 ≤ w) (i : Fin d) :
    |(c.integralError err).1.accum_errs i| ≤ w := by
  unfold integralError
  rw [hu, hw]
  simp only [Bool.true_eq_false, if_false, Option.getD_some]
  exact abs_clamp_le _ _ h0

/-- The accumulated error coming out of `process_force` is bounded by the
windup cutoff whenever the integrator is in use. -/
theorem process_force_accum_bound {d : ℕ} (c : VelocityController d)
    (w : ℝ) (hu : c.use_integrator = true)
    (hw : c.integrator_windup_cutoff = some w) (h0 : 0 ≤ w) (i : Fin d) :
    |c.process_force.accum_errs i| ≤ w := by
  have h : c.process_force.accum_errs =
      (c.integralError
        (fun j => c.agent.action.u j - c.agent.state.vel j)).1.accum_errs :=
    rfl
  rw [h]
  exact integralError_accum_bound c _ w hu hw h0 i

/-- With the integrator off, neither `integralError` nor `process_force`
touches `accum_errs`. -/
theorem run_accum_off {d : ℕ}
    (inputs : List ((Fin d → ℝ) × (Fin d → ℝ))) :
    ∀ c : VelocityController d, c.use_integrator = false →
    (c.run inputs).accum_errs = c.accum_errs := by
  induction inputs with
  | nil => exact fun c _ => rfl
  | cons p ps ih =>
    intro c hc
    have hstep : ((c.setInputs p.1 p.2).process_force).accum_errs =
        c.accum_errs := by
      have h : ((c.setInputs p.1 p.2).process_force).accum_errs =
          ((c.setInputs p.1 p.2).integralError
            (fun j => (c.setInputs p.1 p.2).agent.action.u j -
              (c.setInputs p.1 p.2).agent.state.vel j)).1.accum_errs := rfl
      rw [h]
      unfold integralError
      rw [show (c.setInputs p.1 p.2).use_integrator = false from hc]
      rfl
    have hu : ((c.setInputs p.1 p.2).process_force).use_integrator = false :=
      (process_force_immut (c.setInputs p.1 p.2)).1.trans hc
    exact (ih ((c.setInputs p.1 p.2).process_force) hu).trans hstep

end VelocityController

/-! ### Claims -/

/-- C1, amended: on every call, `process_force`'s only observable effects
are the force written to `agent.action.u` — which is the very field that
held the desired velocity, so the desired-velocity input is overwritten by
the force — together with the controller's mutations of `accum_errs` and
`prev_err`; the agent's `state.vel` (current velocity), `mass`, `max_f`
and `f_range` are unchanged by the call. -/
theorem claim_C1 {d : ℕ} (c : VelocityController d) :
    c.process_force =
      { c with
        agent := { c.agent with action :=
          { u := c.process_force.agent.action.u } }
        accum_errs := c.process_force.accum_errs
        prev_err := c.process_force.prev_err }
    ∧ c.process_force.agent.state.vel = c.agent.state.vel
    ∧ c.process_force.agent.mass = c.agent.mass
    ∧ c.process_force.agent.max_f = c.agent.max_f
    ∧ c.process_force.agent.f_range = c.agent.f_range := by
  unfold VelocityController.process_force VelocityController.integralError
  split
  · exact ⟨rfl, rfl, rfl, rfl, rfl⟩
  · exact ⟨rfl, rfl, rfl, rfl, rfl⟩

/-- C1 counterexample: the claim says the agent's `desired_velocity` input
is unchanged by `process_force`, but the code stores the computed force in
the same field `agent.action.u` that held the desired velocity.  On
`ctrlA` (desired velocity 1, current velocity 0, `kP = 1`, mass 2, no
limits) the call changes `agent.action.u` from 1 to the force 2. -/
theorem claim_C1_counterexample :
    ctrlA.process_force.agent.action.u 0 ≠ ctrlA.agent.action.u 0 := by
  simp only [VelocityController.process_force,
    VelocityController.integralError, VelocityController.rateError,
    ctrlA, agentA]
  norm_num

/-- C2: the force written by `process_force` equals
`mass * kP * (error + integral_term(error) + derivative_term(error))` with
`error = desired_velocity - current_velocity` (both terms taken on the
pre-call state), clamped first by Euclidean norm to `max_f` when present
and then per component to `[-f_range, f_range]` when present, in exactly
that order. -/
theorem claim_C2 {d : ℕ} (c : VelocityController d) :
    c.process_force.agent.action.u =
      (let err := fun i => c.agent.action.u i - c.agent.state.vel i
       let force := fun i => c.agent.mass *
         (c.ctrl_gain *
           (err i + (c.integralError err).2 i + (c.rateError err).2 i))
       let normClamped := match c.agent.max_f with
         | some m => clamp_with_norm force m
         | none => force
       match c.agent.f_range with
         | some r => torch_clamp normClamped r
         | none => normClamped) := by
  have hr := VelocityController.rateError_snd_after_integral c
    (fun i => c.agent.action.u i - c.agent.state.vel i)
  show (match c.agent.f_range with
    | some r => torch_clamp (match c.agent.max_f with
        | some m => clamp_with_norm (fun i =>
            c.ctrl_gain *
              ((fun j => c.agent.action.u j - c.agent.state.vel j) i +
                (c.integralError
                  (fun j => c.agent.action.u j - c.agent.state.vel j)).2 i +
                ((c.integralError
                    (fun j => c.agent.action.u j - c.agent.state.vel j)).1.rateError
                  (fun j => c.agent.action.u j - c.agent.state.vel j)).2 i) *
              c.agent.mass) m
        | none => fun i =>
            c.ctrl_gain *
              ((fun j => c.agent.action.u j - c.agent.state.vel j) i +
                (c.integralError
                  (fun j => c.agent.action.u j - c.agent.state.vel j)).2 i +
                ((c.integralError
                    (fun j => c.agent.action.u j - c.agent.state.vel j)).1.rateError
                  (fun j => c.agent.action.u j - c.agent.state.vel j)).2 i) *
              c.agent.mass) r
    | none => (match c.agent.max_f with
        | some m => clamp_with_norm (fun i =>
            c.ctrl_gain *
              ((fun j => c.agent.action.u j - c.agent.state.vel j) i +
                (c.integralError
                  (fun j => c.agent.action.u j - c.agent.state.vel j)).2 i +
                ((c.integralError
                    (fun j => c.agent.action.u j - c.agent.state.vel j)).1.rateError
                  (fun j => c.agent.action.u j - c.agent.state.vel j)).2 i) *
              c.agent.mass) m
        | none => fun i =>
            c.ctrl_gain *
              ((fun j => c.agent.action.u j - c.agent.state.vel j) i +
                (c.integralError
                  (fun j => c.agent.action.u j - c.agent.state.vel j)).2 i +
                ((c.integralError
                    (fun j => c.agent.action.u j - c.agent.state.vel j)).1.rateError
                  (fun j => c.agent.action.u j - c.agent.state.vel j)).2 i) *
              c.agent.mass)) = _
  rw [hr]
  have harg : (fun i =>
      c.ctrl_gain *
        ((fun j => c.agent.action.u j - c.agent.state.vel j) i +
          (c.integralError
            (fun j => c.agent.action.u j - c.agent.state.vel j)).2 i +
          (c.rateError
            (fun j => c.agent.action.u j - c.agent.state.vel j)).2 i) *
        c.agent.mass) =
      (fun i => c.agent.mass *
        (c.ctrl_gain *
          ((c.agent.action.u i - c.agent.state.vel i) +
            (c.integralError
              (fun j => c.agent.action.u j - c.agent.state.vel j)).2 i +
            (c.rateError
              (fun j => c.agent.action.u j - c.agent.state.vel j)).2 i))) := by
    funext i
    ring
  rw [harg]

/-- `__init__` with the standard form selector. -/
theorem init_standard {d : ℕ} (A : Agent d) (dt : ℝ) (p : ℝ × ℝ × ℝ) :
    VelocityController.init A dt p "standard" =
      .ok (VelocityController.mkWith A dt p.1 p.2.1 p.2.2) := by
  unfold VelocityController.init
  rw [if_pos rfl]

/-- `__init__` with the parallel form selector. -/
theorem init_parallel {d : ℕ} (A : Agent d) (dt : ℝ) (p : ℝ × ℝ × ℝ) :
    VelocityController.init A dt p "parallel" =
      .ok (VelocityController.mkWith A dt p.1
        (if p.2.1 = 0 then 0 else p.1 / p.2.1) (p.2.2 / p.1)) := by
  unfold VelocityController.init
  rw [if_neg (by decide : ¬("parallel" = "standard")), if_pos rfl]

/-- A successful `__init__` yields `mkWith` applied to the gains of one of
the two recognised forms. -/
theorem init_ok_shape {d : ℕ} {A : Agent d} {dt : ℝ} {p : ℝ × ℝ × ℝ}
    {form : String} {c : VelocityController d}
    (hinit : VelocityController.init A dt p form = .ok c) :
    c = VelocityController.mkWith A dt p.1 p.2.1 p.2.2
    ∨ c = VelocityController.mkWith A dt p.1
        (if p.2.1 = 0 then 0 else p.1 / p.2.1) (p.2.2 / p.1) := by
  unfold VelocityController.init at hinit
  split at hinit
  · injection hinit with h
    exact Or.inl h.symm
  · split at hinit
    · injection hinit with h
      exact Or.inr h.symm
    · cases hinit

/-- The windup cutoff a successful integrator-enabled construction stores. -/
theorem mkWith_cutoff {d : ℕ} (A : Agent d) (dt kP iTs dTs : ℝ)
    (hu : (VelocityController.mkWith A dt kP iTs dTs).use_integrator =
      true) :
    (VelocityController.mkWith A dt kP iTs dTs).integrator_windup_cutoff =
      some (0.5 * (A.max_f.getD 2.0) *
        (VelocityController.mkWith A dt kP iTs dTs).integralTs /
        (dt * kP)) := by
  by_cases h : iTs = 0
  · exfalso
    unfold VelocityController.mkWith at hu
    rw [if_pos h] at hu
    exact Bool.noConfusion hu
  · show (if iTs = 0 then none
      else some (0.5 * (A.max_f.getD 2.0) * iTs / (dt * kP))) = _
    rw [if_neg h]
    rfl

/-- The returned integral contribution only depends on the fields
`integralError` reads. -/
theorem integralError_snd_congr {d : ℕ} (a b : VelocityController d)
    (err : Fin d → ℝ)
    (h1 : a.use_integrator = b.use_integrator)
    (h2 : a.integrator_windup_cutoff = b.integrator_windup_cutoff)
    (h3 : a.dt = b.dt) (h4 : a.integralTs = b.integralTs)
    (h5 : a.accum_errs = b.accum_errs) :
    (a.integralError err).2 = (b.integralError err).2 := by
  unfold VelocityController.integralError
  rw [apply_ite Prod.snd, apply_ite Prod.snd]
  simp only [h1, h2, h3, h4, h5]

/-- The returned derivative contribution only depends on the fields
`rateError` reads. -/
theorem rateError_snd_congr {d : ℕ} (a b : VelocityController d)
    (err : Fin d → ℝ)
    (h1 : a.derivativeTs = b.derivativeTs)
    (h2 : a.prev_err = b.prev_err) (h3 : a.dt = b.dt) :
    (a.rateError err).2 = (b.rateError err).2 := by
  unfold VelocityController.rateError
  rw [h1, h2, h3]

/-- C3: with the integrator in use and a nonnegative windup cutoff `w`,
after any nonempty sequence of ticks every component of the stored
`accum_errs` is bounded in magnitude by `w` (the clamp is applied to the
accumulated state itself, so the bound persists across ticks); with the
integrator off, `accum_errs` stays permanently zero and `integralError`
returns zero without touching the state. -/
theorem claim_C3 {d : ℕ} (c con : VelocityController d) (w : ℝ)
    (inputs : List ((Fin d → ℝ) × (Fin d → ℝ))) (err : Fin d → ℝ)
    (i : Fin d)
    (hu : c.use_integrator = true)
    (hw : c.integrator_windup_cutoff = some w)
    (h0 : 0 ≤ w)
    (hne : inputs ≠ [])
    (hcon : con.use_integrator = false)
    (hz : con.accum_errs = fun _ => 0) :
    |(c.run inputs).accum_errs i| ≤ w
    ∧ (con.run inputs).accum_errs = (fun _ => 0)
    ∧ con.integralError err = (con, fun _ => 0) := by
  refine ⟨?_, ?_, ?_⟩
  · obtain ⟨ys, y, rfl⟩ := (List.eq_nil_or_concat' inputs).resolve_left hne
    have hrun : c.run (ys ++ [y]) =
        ((c.run ys).setInputs y.1 y.2).process_force := by
      unfold VelocityController.run
      rw [List.foldl_append]
      rfl
    rw [hrun]
    have him := VelocityController.run_immut ys c
    exact VelocityController.process_force_accum_bound
      ((c.run ys).setInputs y.1 y.2) w
      (show ((c.run ys).setInputs y.1 y.2).use_integrator = true from
        him.1.trans hu)
      (show ((c.run ys).setInputs y.1 y.2).integrator_windup_cutoff =
          some w from him.2.1.trans hw)
      h0 i
  · exact (VelocityController.run_accum_off inputs con hcon).trans hz
  · unfold VelocityController.integralError
    rw [hcon, if_pos rfl]

/-- C3 witness: one tick on the integrator-enabled `ctrlB` (cutoff 1) and
on the integrator-free `ctrlA`. -/
theorem claim_C3_witness :
    ctrlB.use_integrator = true
    ∧ ctrlB.integrator_windup_cutoff = some 1
    ∧ (0:ℝ) ≤ 1
    ∧ ([((fun _ => (1:ℝ)), (fun _ => (0:ℝ)))] :
        List ((Fin 1 → ℝ) × (Fin 1 → ℝ))) ≠ []
    ∧ ctrlA.use_integrator = false
    ∧ ctrlA.accum_errs = (fun _ => 0)
    ∧ (|(ctrlB.run [((fun _ => 1), (fun _ => 0))]).accum_errs 0| ≤ 1
       ∧ (ctrlA.run [((fun _ => 1), (fun _ => 0))]).accum_errs = (fun _ => 0)
       ∧ ctrlA.integralError (fun _ => 5) = (ctrlA, fun _ => 0)) :=
  ⟨rfl, rfl, by norm_num, List.cons_ne_nil _ _, rfl, rfl,
    claim_C3 ctrlB ctrlA 1 [((fun _ => 1), (fun _ => 0))] (fun _ => 5) 0
      rfl rfl (by norm_num) (List.cons_ne_nil _ _) rfl rfl⟩

/-- C4: constructing with standard form `[kP, Ti, Td]` and with parallel
form `[kP, kP/Ti, kP*Td]` (for `kP, Ti ≠ 0`) produces the very same
controller — in particular identical `integralTs` and `derivativeTs` —
and hence identical output-force sequences on identical input sequences. -/
theorem claim_C4 {d : ℕ} (A : Agent d) (dt kP Ti Td : ℝ)
    (inputs : List ((Fin d → ℝ) × (Fin d → ℝ)))
    (hkP : kP ≠ 0) (hTi : Ti ≠ 0) :
    VelocityController.init A dt (kP, Ti, Td) "standard" =
      VelocityController.init A dt (kP, kP / Ti, kP * Td) "parallel"
    ∧ (VelocityController.init A dt (kP, Ti, Td) "standard").map
        (fun c => (c.integralTs, c.derivativeTs)) =
      (VelocityController.init A dt (kP, kP / Ti, kP * Td) "parallel").map
        (fun c => (c.integralTs, c.derivativeTs))
    ∧ (VelocityController.init A dt (kP, Ti, Td) "standard").map
        (fun c => c.outputSeq inputs) =
      (VelocityController.init A dt (kP, kP / Ti, kP * Td) "parallel").map
        (fun c => c.outputSeq inputs) := by
  have hmain : VelocityController.init A dt (kP, Ti, Td) "standard" =
      VelocityController.init A dt (kP, kP / Ti, kP * Td) "parallel" := by
    rw [init_standard, init_parallel]
    have h1 : (if kP / Ti = 0 then (0:ℝ) else kP / (kP / Ti)) = Ti := by
      rw [if_neg (div_ne_zero hkP hTi)]
      field_simp
    have h2 : kP * Td / kP = Td := by
      field_simp
    rw [h1, h2]
  exact ⟨hmain, by rw [hmain], by rw [hmain]⟩

/-- C4 witness: `kP = 1`, `Ti = 2`, `Td = 3`, one tick. -/
theorem claim_C4_witness :
    ((1:ℝ) ≠ 0) ∧ ((2:ℝ) ≠ 0)
    ∧ (VelocityController.init agentA 1 ((1:ℝ), (2:ℝ), (3:ℝ)) "standard" =
        VelocityController.init agentA 1 (1, 1 / 2, 1 * 3) "parallel"
      ∧ (VelocityController.init agentA 1 ((1:ℝ), 2, 3) "standard").map
          (fun c => (c.integralTs, c.derivativeTs)) =
        (VelocityController.init agentA 1 (1, 1 / 2, 1 * 3) "parallel").map
          (fun c => (c.integralTs, c.derivativeTs))
      ∧ (VelocityController.init agentA 1 ((1:ℝ), 2, 3) "standard").map
          (fun c => c.outputSeq [((fun _ => 1), (fun _ => 0))]) =
        (VelocityController.init agentA 1 (1, 1 / 2, 1 * 3) "parallel").map
          (fun c => c.outputSeq [((fun _ => 1), (fun _ => 0))])) :=
  ⟨by norm_num, by norm_num,
    claim_C4 agentA 1 1 2 3 [((fun _ => 1), (fun _ => 0))]
      (by norm_num) (by norm_num)⟩

/-- C5: parallel-form conversion.  `kI = 0` is explicitly guarded and
yields `integralTs = 0`; otherwise `integralTs = kP / kI`; under the
precondition `kP ≠ 0`, `derivativeTs = kD / kP`; and the division by `kP`
carries no explicit zero-guard: construction with `kP = 0` still completes
without raising any error (in particular no DegenerateGain-style check
exists — `CtrlError` has no such constructor). -/
theorem claim_C5 {d : ℕ} (A : Agent d) (dt kP kI kD : ℝ)
    (hI : kI ≠ 0) (hP : kP ≠ 0) :
    (VelocityController.init A dt (kP, 0, kD) "parallel").map
      (fun c => c.integralTs) = .ok 0
    ∧ (VelocityController.init A dt (kP, kI, kD) "parallel").map
      (fun c => c.integralTs) = .ok (kP / kI)
    ∧ (VelocityController.init A dt (kP, kI, kD) "parallel").map
      (fun c => c.derivativeTs) = .ok (kD / kP)
    ∧ VelocityController.constructionOk
        (VelocityController.init A dt (0, kI, kD) "parallel") = true := by
  refine ⟨?_, ?_, ?_, ?_⟩
  · rw [init_parallel]
    show Except.ok (if (0:ℝ) = 0 then (0:ℝ) else kP / 0) = Except.ok 0
    rw [if_pos rfl]
  · rw [init_parallel]
    show Except.ok (if kI = 0 then (0:ℝ) else kP / kI) = Except.ok (kP / kI)
    rw [if_neg hI]
  · rw [init_parallel]
    rfl
  · rw [init_parallel]
    rfl

/-- C5 witness: `kP = 1`, `kI = 2`, `kD = 3`. -/
theorem claim_C5_witness :
    ((2:ℝ) ≠ 0) ∧ ((1:ℝ) ≠ 0)
    ∧ ((VelocityController.init agentA 1 ((1:ℝ), 0, 3) "parallel").map
        (fun c => c.integralTs) = .ok 0
      ∧ (VelocityController.init agentA 1 ((1:ℝ), 2, 3) "parallel").map
        (fun c => c.integralTs) = .ok (1 / 2)
      ∧ (VelocityController.init agentA 1 ((1:ℝ), 2, 3) "parallel").map
        (fun c => c.derivativeTs) = .ok (3 / 1)
      ∧ VelocityController.constructionOk
          (VelocityController.init agentA 1 ((0:ℝ), 2, 3) "parallel") =
        true) :=
  ⟨by norm_num, by norm_num,
    claim_C5 agentA 1 1 2 3 (by norm_num) (by norm_num)⟩

/-- C6: construction fails, with the invalid-configuration error and no
partial controller, exactly when the form selector is neither
`"standard"` nor `"parallel"`; for the two valid selectors it always
completes without raising. -/
theorem claim_C6 {d : ℕ} (A : Agent d) (dt : ℝ) (p : ℝ × ℝ × ℝ)
    (form : String) (h1 : form ≠ "standard") (h2 : form ≠ "parallel") :
    VelocityController.init A dt p form = .error .invalidConfiguration
    ∧ VelocityController.constructionOk
        (VelocityController.init A dt p "standard") = true
    ∧ VelocityController.constructionOk
        (VelocityController.init A dt p "parallel") = true := by
  refine ⟨?_, ?_, ?_⟩
  · unfold VelocityController.init
    rw [if_neg h1, if_neg h2]
  · rw [init_standard]
    rfl
  · rw [init_parallel]
    rfl

/-- C6 witness: the selector `"midway"` is rejected. -/
theorem claim_C6_witness :
    ("midway" ≠ "standard") ∧ ("midway" ≠ "parallel")
    ∧ (VelocityController.init agentA 1 ((1:ℝ), 0, 0) "midway" =
        .error .invalidConfiguration
      ∧ VelocityController.constructionOk
          (VelocityController.init agentA 1 ((1:ℝ), 0, 0) "standard") = true
      ∧ VelocityController.constructionOk
          (VelocityController.init agentA 1 ((1:ℝ), 0, 0) "parallel") =
        true) :=
  ⟨by decide, by decide,
    claim_C6 agentA 1 (1, 0, 0) "midway" (by decide) (by decide)⟩

/-- C7: whenever construction succeeds with the integrator in use, the
stored windup cutoff equals
`0.5 * force_limit * integralTs / (dt * kP)` with `force_limit` the
agent's `max_f` when present and `2.0` otherwise; and the cutoff is never
changed afterwards — neither by `process_force`, nor by `reset`, nor by
any sequence of ticks. -/
theorem claim_C7 {d : ℕ} (A : Agent d) (dt : ℝ) (p : ℝ × ℝ × ℝ)
    (form : String) (c c' : VelocityController d)
    (inputs : List ((Fin d → ℝ) × (Fin d → ℝ)))
    (hinit : VelocityController.init A dt p form = .ok c)
    (hu : c.use_integrator = true) :
    c.integrator_windup_cutoff =
      some (0.5 * (A.max_f.getD 2.0) * c.integralTs / (dt * p.1))
    ∧ c'.process_force.integrator_windup_cutoff =
        c'.integrator_windup_cutoff
    ∧ c'.reset.integrator_windup_cutoff = c'.integrator_windup_cutoff
    ∧ (c'.run inputs).integrator_windup_cutoff =
        c'.integrator_windup_cutoff := by
  refine ⟨?_, (VelocityController.process_force_immut c').2.1, rfl,
    (VelocityController.run_immut inputs c').2.1⟩
  rcases init_ok_shape hinit with h | h
  · subst h
    exact mkWith_cutoff A dt p.1 p.2.1 p.2.2 hu
  · subst h
    exact mkWith_cutoff A dt p.1 _ _ hu

/-- C7 witness: standard form `[1, 2, 0]`, `dt = 1`, agent without
`max_f`, so the cutoff is `0.5 * 2.0 * 2 / (1 * 1)`. -/
theorem claim_C7_witness :
    VelocityController.init agentA 1 ((1:ℝ), 2, 0) "standard" =
      .ok (VelocityController.mkWith agentA 1 1 2 0)
    ∧ (VelocityController.mkWith agentA 1 1 2 0).use_integrator = true
    ∧ ((VelocityController.mkWith agentA 1 1 2 0).integrator_windup_cutoff =
        some (0.5 * (agentA.max_f.getD 2.0) *
          (VelocityController.mkWith agentA 1 1 2 0).integralTs / (1 * 1))
      ∧ ctrlA.process_force.integrator_windup_cutoff =
          ctrlA.integrator_windup_cutoff
      ∧ ctrlA.reset.integrator_windup_cutoff =
          ctrlA.integrator_windup_cutoff
      ∧ (ctrlA.run [((fun _ => 1), (fun _ => 0))]).integrator_windup_cutoff =
          ctrlA.integrator_windup_cutoff) :=
  ⟨init_standard agentA 1 (1, 2, 0),
    by norm_num [VelocityController.mkWith],
    claim_C7 agentA 1 (1, 2, 0) "standard"
      (VelocityController.mkWith agentA 1 1 2 0) ctrlA
      [((fun _ => 1), (fun _ => 0))]
      (init_standard agentA 1 (1, 2, 0))
      (by norm_num [VelocityController.mkWith])⟩

/-- C8: `rateError` returns `derivativeTs * (error - previous_error) / dt`
computed with the pre-call `previous_error`, and unconditionally stores
the argument into `previous_error` — also when `derivativeTs = 0`, where
the returned value is zero but two consecutive calls still leave
`previous_error` equal to the second call's error. -/
theorem claim_C8 {d : ℕ} (c c0 : VelocityController d)
    (err err2 : Fin d → ℝ) (hd : c0.derivativeTs = 0) :
    (c.rateError err).2 =
      (fun i => c.derivativeTs * (err i - c.prev_err i) / c.dt)
    ∧ (c.rateError err).1 = { c with prev_err := err }
    ∧ (c0.rateError err).2 = (fun _ => 0)
    ∧ ((c0.rateError err).1.rateError err2).1.prev_err = err2 := by
  refine ⟨rfl, rfl, ?_, rfl⟩
  funext i
  show c0.derivativeTs * (err i - c0.prev_err i) / c0.dt = 0
  rw [hd, zero_mul, zero_div]

/-- C8 witness: `ctrlA` has `derivativeTs = 0`; errors 1 then 2. -/
theorem claim_C8_witness :
    ctrlA.derivativeTs = 0
    ∧ ((ctrlB.rateError (fun _ => 1)).2 =
        (fun i => ctrlB.derivativeTs *
          ((fun _ => (1:ℝ)) i - ctrlB.prev_err i) / ctrlB.dt)
      ∧ (ctrlB.rateError (fun _ => 1)).1 =
          { ctrlB with prev_err := fun _ => 1 }
      ∧ (ctrlA.rateError (fun _ => 1)).2 = (fun _ => 0)
      ∧ ((ctrlA.rateError (fun _ => 1)).1.rateError
          (fun _ => 2)).1.prev_err = (fun _ => 2)) :=
  ⟨rfl, claim_C8 ctrlB ctrlA (fun _ => 1) (fun _ => 2) rfl⟩

/-- C9: `reset` zeroes exactly `accum_errs` and `prev_err` (all other
controller state, the agent included, is untouched), is idempotent, and
after any sequence of ticks a reset makes the next integral and
derivative contributions identical to those of the freshly constructed
controller fed the same error. -/
theorem claim_C9 {d : ℕ} (A : Agent d) (dt : ℝ) (p : ℝ × ℝ × ℝ)
    (form : String) (c0 c : VelocityController d)
    (inputs : List ((Fin d → ℝ) × (Fin d → ℝ))) (err : Fin d → ℝ)
    (hinit : VelocityController.init A dt p form = .ok c0) :
    c.reset = { c with accum_errs := fun _ => 0, prev_err := fun _ => 0 }
    ∧ c.reset.reset = c.reset
    ∧ c.reset.agent = c.agent
    ∧ ((c0.run inputs).reset.integralError err).2 =
        (c0.integralError err).2
    ∧ ((c0.run inputs).reset.rateError err).2 = (c0.rateError err).2 := by
  have him := VelocityController.run_immut inputs c0
  have hacc : c0.accum_errs = (fun _ => 0) := by
    rcases init_ok_shape hinit with h | h
    · rw [h]
      rfl
    · rw [h]
      rfl
  have hprev : c0.prev_err = (fun _ => 0) := by
    rcases init_ok_shape hinit with h | h
    · rw [h]
      rfl
    · rw [h]
      rfl
  refine ⟨rfl, rfl, rfl, ?_, ?_⟩
  · exact integralError_snd_congr _ _ err him.1 him.2.1 him.2.2.1
      him.2.2.2.2.1 hacc.symm
  · exact rateError_snd_congr _ _ err him.2.2.2.2.2 hprev.symm him.2.2.1

/-- C9 witness: standard form `[1, 1, 0]` on `agentA`, one tick, then a
reset, compared against the fresh controller on error 1. -/
theorem claim_C9_witness :
    VelocityController.init agentA 1 ((1:ℝ), 1, 0) "standard" =
      .ok (VelocityController.mkWith agentA 1 1 1 0)
    ∧ (ctrlB.reset =
        { ctrlB with accum_errs := fun _ => 0, prev_err := fun _ => 0 }
      ∧ ctrlB.reset.reset = ctrlB.reset
      ∧ ctrlB.reset.agent = ctrlB.agent
      ∧ (((VelocityController.mkWith agentA 1 1 1 0).run
            [((fun _ => 1), (fun _ => 0))]).reset.integralError
          (fun _ => 1)).2 =
        ((VelocityController.mkWith agentA 1 1 1 0).integralError
          (fun _ => 1)).2
      ∧ (((VelocityController.mkWith agentA 1 1 1 0).run
            [((fun _ => 1), (fun _ => 0))]).reset.rateError
          (fun _ => 1)).2 =
        ((VelocityController.mkWith agentA 1 1 1 0).rateError
          (fun _ => 1)).2) :=
  ⟨init_standard agentA 1 (1, 1, 0),
    claim_C9 agentA 1 (1, 1, 0) "standard"
      (VelocityController.mkWith agentA 1 1 1 0) ctrlB
      [((fun _ => 1), (fun _ => 0))] (fun _ => 1)
      (init_standard agentA 1 (1, 1, 0))⟩

/-! ### Batch independence -/

/-- Two agents with equal fields are equal. -/
theorem Agent_ext {d : ℕ} {x y : Agent d}
    (h1 : x.action.u = y.action.u) (h2 : x.state.vel = y.state.vel)
    (h3 : x.mass = y.mass) (h4 : x.max_f = y.max_f)
    (h5 : x.f_range = y.f_range) : x = y := by
  obtain ⟨⟨xu⟩, ⟨xv⟩, xm, xf, xr⟩ := x
  obtain ⟨⟨yu⟩, ⟨yv⟩, ym, yf, yr⟩ := y
  cases h1
  cases h2
  cases h3
  cases h4
  cases h5
  rfl

/-- Two controllers with equal fields are equal. -/
theorem VC_ext {d : ℕ} {x y : VelocityController d}
    (h1 : x.agent = y.agent) (h2 : x.dt = y.dt)
    (h3 : x.ctrl_gain = y.ctrl_gain) (h4 : x.integralTs = y.integralTs)
    (h5 : x.derivativeTs = y.derivativeTs)
    (h6 : x.use_integrator = y.use_integrator)
    (h7 : x.integrator_windup_cutoff = y.integrator_windup_cutoff)
    (h8 : x.accum_errs = y.accum_errs) (h9 : x.prev_err = y.prev_err) :
    x = y := by
  obtain ⟨xa, xb, xc, xd, xe, xf, xg, xh, xi⟩ := x
  obtain ⟨ya, yb, yc, yd, ye, yf, yg, yh, yi⟩ := y
  cases h1
  cases h2
  cases h3
  cases h4
  cases h5
  cases h6
  cases h7
  cases h8
  cases h9
  rfl

/-- Slot `k` of the batched `integralError` is the single-entry
`integralError` of slot `k`: state and returned value. -/
theorem slot_integralError {b d : ℕ} (bc : BVelocityController b d)
    (e : Fin b → Fin d → ℝ) (k : Fin b) :
    (BVelocityController.integralError bc e).1.slot k =
      ((bc.slot k).integralError (e k)).1
    ∧ (BVelocityController.integralError bc e).2 k =
      ((bc.slot k).integralError (e k)).2 := by
  have hcond : (bc.slot k).use_integrator = bc.use_integrator := rfl
  unfold BVelocityController.integralError VelocityController.integralError
  rw [hcond]
  by_cases h : bc.use_integrator = false
  · simp only [if_pos h]
    exact ⟨by trivial, by trivial⟩
  · simp only [if_neg h]
    exact ⟨by trivial, by trivial⟩

/-- Slot `k` of the batched `process_force` is the single-entry
`process_force` run on slot `k`: the batched tick treats every batch slot
exactly as its own single-entry controller would. -/
theorem slot_process_force {b d : ℕ} (bc : BVelocityController b d)
    (k : Fin b) :
    bc.process_force.slot k = (bc.slot k).process_force := by
  have hsi := slot_integralError bc
    (fun q j => bc.agent.action.u q j - bc.agent.state.vel q j) k
  have hIBi : ∀ i,
      (BVelocityController.integralError bc
        (fun q j => bc.agent.action.u q j - bc.agent.state.vel q j)).2 k i =
      ((bc.slot k).integralError
        (fun j => bc.agent.action.u k j - bc.agent.state.vel k j)).2 i :=
    fun i => congrFun hsi.2 i
  have hRBi : ∀ i,
      (BVelocityController.rateError
        (BVelocityController.integralError bc
          (fun q j => bc.agent.action.u q j - bc.agent.state.vel q j)).1
        (fun q j => bc.agent.action.u q j - bc.agent.state.vel q j)).2 k i =
      (VelocityController.rateError
        ((bc.slot k).integralError
          (fun j => bc.agent.action.u k j - bc.agent.state.vel k j)).1
        (fun j => bc.agent.action.u k j - bc.agent.state.vel k j)).2 i := by
    intro i
    have h0 : (BVelocityController.rateError
        (BVelocityController.integralError bc
          (fun q j => bc.agent.action.u q j - bc.agent.state.vel q j)).1
        (fun q j => bc.agent.action.u q j - bc.agent.state.vel q j)).2 k =
        (VelocityController.rateError
          ((BVelocityController.integralError bc
            (fun q j => bc.agent.action.u q j -
              bc.agent.state.vel q j)).1.slot k)
          (fun j => bc.agent.action.u k j - bc.agent.state.vel k j)).2 :=
      rfl
    rw [h0, hsi.1]
  apply VC_ext
  · apply Agent_ext
    · have hL : (bc.process_force.slot k).agent.action.u =
          bc.process_force.agent.action.u k := rfl
      rw [hL]
      have e1 : (bc.slot k).agent.f_range = bc.agent.f_range := rfl
      have e2 : (bc.slot k).agent.max_f = bc.agent.max_f := rfl
      have e3 : (bc.slot k).agent.mass = bc.agent.mass := rfl
      have e4 : (bc.slot k).ctrl_gain = bc.ctrl_gain := rfl
      have e5 : (bc.slot k).agent.action.u = bc.agent.action.u k := rfl
      have e6 : (bc.slot k).agent.state.vel = bc.agent.state.vel k := rfl
      simp only [BVelocityController.process_force,
        VelocityController.process_force, e1, e2, e3, e4, e5, e6]
      cases hmf : bc.agent.max_f <;> cases hfr : bc.agent.f_range <;>
        (try (funext i; simp only [btorch_clamp, torch_clamp,
          bclamp_with_norm, clamp_with_norm, hIBi, hRBi]))
    · exact congrArg (fun c => c.agent.state.vel) hsi.1
    · exact congrArg (fun c => c.agent.mass) hsi.1
    · exact congrArg (fun c => c.agent.max_f) hsi.1
    · exact congrArg (fun c => c.agent.f_range) hsi.1
  · exact congrArg (fun c => c.dt) hsi.1
  · exact congrArg (fun c => c.ctrl_gain) hsi.1
  · exact congrArg (fun c => c.integralTs) hsi.1
  · exact congrArg (fun c => c.derivativeTs) hsi.1
  · exact congrArg (fun c => c.use_integrator) hsi.1
  · exact congrArg (fun c => c.integrator_windup_cutoff) hsi.1
  · exact congrArg (fun c => c.accum_errs) hsi.1
  · rfl

/-- Slot `k` of a batched multi-tick run is the single-entry run of slot
`k` on that slot's own input history. -/
theorem slot_run {b d : ℕ}
    (inputs : List ((Fin b → Fin d → ℝ) × (Fin b → Fin d → ℝ))) :
    ∀ (bc : BVelocityController b d) (k : Fin b),
    (bc.run inputs).slot k =
      (bc.slot k).run (inputs.map (fun p => (p.1 k, p.2 k))) := by
  induction inputs with
  | nil => exact fun bc k => rfl
  | cons p ps ih =>
    intro bc k
    calc (bc.run (p :: ps)).slot k
        = (((bc.setInputs p.1 p.2).process_force).run ps).slot k := rfl
      _ = (((bc.setInputs p.1 p.2).process_force).slot k).run
            (ps.map (fun q => (q.1 k, q.2 k))) :=
          ih ((bc.setInputs p.1 p.2).process_force) k
      _ = (((bc.setInputs p.1 p.2).slot k).process_force).run
            (ps.map (fun q => (q.1 k, q.2 k))) := by
          rw [slot_process_force]
      _ = (bc.slot k).run ((p :: ps).map (fun q => (q.1 k, q.2 k))) := rfl

/-- Slot `k` of the batched output sequence is the single-entry output
sequence of slot `k` on that slot's own input history. -/
theorem slot_outputSeq {b d : ℕ}
    (inputs : List ((Fin b → Fin d → ℝ) × (Fin b → Fin d → ℝ))) :
    ∀ (bc : BVelocityController b d) (k : Fin b),
    (bc.outputSeq inputs).map (fun f => f k) =
      (bc.slot k).outputSeq (inputs.map (fun p => (p.1 k, p.2 k))) := by
  induction inputs with
  | nil => exact fun bc k => rfl
  | cons p ps ih =>
    intro bc k
    show ((bc.setInputs p.1 p.2).process_force).agent.action.u k ::
        (((bc.setInputs p.1 p.2).process_force).outputSeq ps).map
          (fun f => f k) =
      (((bc.slot k).setInputs (p.1 k) (p.2 k)).process_force).agent.action.u
        :: (((bc.slot k).setInputs (p.1 k)
              (p.2 k)).process_force).outputSeq
          (ps.map (fun q => (q.1 k, q.2 k)))
    have hhd : ((bc.setInputs p.1 p.2).process_force).agent.action.u k =
        (((bc.slot k).setInputs (p.1 k) (p.2 k)).process_force).agent.action.u := by
      have h0 : ((bc.setInputs p.1 p.2).process_force).agent.action.u k =
          (((bc.setInputs p.1 p.2).process_force).slot k).agent.action.u :=
        rfl
      rw [h0, slot_process_force]
      rfl
    have htl : (((bc.setInputs p.1 p.2).process_force).outputSeq ps).map
          (fun f => f k) =
        (((bc.slot k).setInputs (p.1 k)
            (p.2 k)).process_force).outputSeq
          (ps.map (fun q => (q.1 k, q.2 k))) := by
      rw [ih ((bc.setInputs p.1 p.2).process_force) k, slot_process_force]
      rfl
    rw [hhd, htl]

/-- C10: batch independence.  Running a batched controller over any input
history and then looking at one batch slot gives exactly the controller
state and output-force sequence obtained by running that slot alone, with
its own single-entry controller, on its own inputs — no other entry's
inputs influence its outputs or its `accum_errs`/`prev_err` slots. -/
theorem claim_C10 {b d : ℕ} (bc : BVelocityController b d) (k : Fin b)
    (inputs : List ((Fin b → Fin d → ℝ) × (Fin b → Fin d → ℝ))) :
    (bc.run inputs).slot k =
      (bc.slot k).run (inputs.map (fun p => (p.1 k, p.2 k)))
    ∧ (bc.run inputs).accum_errs k =
      ((bc.slot k).run (inputs.map (fun p => (p.1 k, p.2 k)))).accum_errs
    ∧ (bc.run inputs).prev_err k =
      ((bc.slot k).run (inputs.map (fun p => (p.1 k, p.2 k)))).prev_err
    ∧ (bc.outputSeq inputs).map (fun f => f k) =
      (bc.slot k).outputSeq (inputs.map (fun p => (p.1 k, p.2 k))) := by
  refine ⟨slot_run inputs bc k, ?_, ?_, slot_outputSeq inputs bc k⟩
  · exact congrArg VelocityController.accum_errs (slot_run inputs bc k)
  · exact congrArg VelocityController.prev_err (slot_run inputs bc k)

end VMAS
